import Mathlib

/-!
Verification development for the TaxParams repository.

The repository (`taxparams/__init__.py`) implements a paramtools-based
parameter store with custom indexing logic:

* `TaxParams.adjust` orchestrates three phases: a CPI-offset phase
  (lines 106-163), an indexed-status phase (lines 165-261) and a
  plain-value phase (lines 266-286);
* `TaxParams.set_rates` (lines 312-330) initializes inflation and wage
  growth rates from the external rate provider and the stored
  `CPI_offset` series;
* `TaxParams.inflation_rates` / `TaxParams.wage_growth_rates`
  (lines 302-310) expose the cached rate series;
* `TaxParams.get_index_rate` (lines 288-300) selects the rate series
  for a parameter.

Years are modelled as integers.  Numeric parameter values and rates
(floats in the Python code) are modelled over an arbitrary commutative
ring `V` with decidable equality; the intended instantiation is the
rationals, while concrete witnesses and counterexamples instantiate `V`
with the integers.  A parameter's stored values
(`self._data[param]["value"]`) are lists of value objects.  Secondary
labels (MARS, EIC, ...) are not needed by any verified property, so a
value object carries the `year` label and the numeric `value`.

Operations inherited from the paramtools base class (`super().adjust`,
`select_*`, `extend`) are not part of this repository's sources; they
are modelled from the spec's description of the Value Store (spec §4.1),
the Rate Provider (spec §4.2) and the Extension Engine (spec §4.3), and
each such definition is marked `Modelled from the spec:` in its
doc comment.
-/

section DataModel

variable (V : Type) [CommRing V] [DecidableEq V]

/-- A value object: a (year, value) record for one parameter. -/
structure VO where
  year : Int
  value : V
deriving DecidableEq

end DataModel

section Selection

variable {V : Type} [CommRing V] [DecidableEq V]

/-- `self.select_gt(param, True, year=y)` restricted to the year label:
value objects whose year is strictly greater than `y` (paramtools `gt`
comparisons are strict). -/
def selectGT (vos : List (VO V)) (y : Int) : List (VO V) :=
  vos.filter (fun vo => decide (y < vo.year))

/-- The effect on a parameter's stored values of
`super().adjust({param: [dict(vo, value=None) for vo in select_gt(param, y)]})`:
every value object with year strictly greater than `y` is removed
(a `None` value is a delete marker, spec §4.1). -/
def deleteGT (vos : List (VO V)) (y : Int) : List (VO V) :=
  vos.filter (fun vo => decide (vo.year ≤ y))

/-- Phase 2.d of `TaxParams.adjust` (lines 252-255):
`pt.select_gt(params[base_param], False, {"year": year - 1})` — the payload
entries applied for a parameter right after its indexed flag flips at
`year`. -/
def phase2dSelect (vos : List (VO V)) (year : Int) : List (VO V) :=
  vos.filter (fun vo => decide (year - 1 < vo.year))

/-- The selection asserted by the spec for phase 2.d: payload entries whose
year is greater than *or equal to* the status-change year minus one.  This
definition follows the spec's words and is compared against
`phase2dSelect`, which is translated from the code. -/
def phase2dSelectClaimed (vos : List (VO V)) (year : Int) : List (VO V) :=
  vos.filter (fun vo => decide (year - 1 ≤ vo.year))

end Selection

/-- `TaxParams.inflation_rates()` with `year=None` (lines 307-310): the
cache field `self._inflation_rates` is `None` before `set_rates` has run;
`self._inflation_rates or []` maps both `None` and an empty list to `[]`. -/
def inflation_rates_no_year (cache : Option (List Rat)) : List Rat :=
  match cache with
  | none => []
  | some l => if l.isEmpty then [] else l

/-- `TaxParams.inflation_rates(year)` (lines 308-309):
`self._inflation_rates[year - self.start_year]`.  The Python raises a
`TypeError` when the cache is `None`; the model returns `none` in that
case and the cached entry otherwise. -/
def inflation_rates_at_year (cache : Option (List Rat)) (year startYear : Int) :
    Option Rat :=
  cache.map (fun l => l.getD (year - startYear).toNat 0)

/-- `TaxParams.wage_growth_rates()` with `year=None` (lines 302-305):
same shape as `inflation_rates_no_year`, reading `self._wage_growth_rates`. -/
def wage_growth_rates_no_year (cache : Option (List Rat)) : List Rat :=
  match cache with
  | none => []
  | some l => if l.isEmpty then [] else l

/-- `TaxParams.wage_growth_rates(year)` (lines 303-304):
`self._wage_growth_rates[year - self.start_year]`. -/
def wage_growth_rates_at_year (cache : Option (List Rat)) (year startYear : Int) :
    Option Rat :=
  cache.map (fun l => l.getD (year - startYear).toNat 0)

/-- Model of `np.round(x, 4)`: round to 4 decimal digits.  (`np.round`
rounds halves to even; none of the verified properties evaluates the
rounding at an exact midpoint, so the midpoint convention is
immaterial.) -/
def round4 (q : Rat) : Rat := ((round (q * 10000) : Int) : Rat) / 10000

/-- The offset padding of `TaxParams.set_rates` (lines 314-318):
`cpi_vals + cpi_vals[-1:] * (2030 - 2013 + 1 - len(cpi_vals))` — the
stored `CPI_offset` series, padded to 18 entries (2013..2030) by
repeating its last element.  For a series already of length ≥ 18 the
Python list multiplier is ≤ 0 and the padding is empty, which truncated
`Nat` subtraction reproduces. -/
def cpiExtended (cpiVals : List Rat) : List Rat :=
  cpiVals ++ List.replicate (18 - cpiVals.length) (cpiVals.getLastD 0)

/-- `TaxParams.set_rates` (lines 312-330).  The external
`taxcalc.GrowFactors` provider is abstracted as the base rate lists
`basePrice` and `baseWage` over 2013..2030 (18 entries each per the
provider contract); `cpiVals` is the stored `CPI_offset` value series
starting at 2013.  The inflation series (the list comprehension of
lines 323-328, with `cpi_offset[2013 + ix]` read from the padded
series) adds the offset to each base price rate and rounds to 4 digits;
the wage series is returned directly from the provider (line 330). -/
def set_rates (cpiVals basePrice baseWage : List Rat) : List Rat × List Rat :=
  ((List.range basePrice.length).map
    (fun ix => round4 (basePrice.getD ix 0 + (cpiExtended cpiVals).getD ix 0)),
   baseWage)

/-- The rate recomputation asserted by the spec for claim C4, stated for
the wage series: every produced wage rate is the base wage rate *rounded
to 4 decimal digits*.  This definition follows the spec's words and is
compared against `set_rates`, which is translated from the code. -/
def c4ClaimedWage (baseWage : List Rat) : List Rat :=
  baseWage.map round4


/-- The `"-indexed"` suffix as a character list (`param.endswith("-indexed")`
and `param.split("-indexed")` operate on this marker). -/
def INDEXED_MARK : List Char := ['-', 'i', 'n', 'd', 'e', 'x', 'e', 'd']

/-- Does the character list `pat` occur at the head of `s`? -/
def leadsWith : List Char → List Char → Bool
  | [], _ => true
  | _ :: _, [] => false
  | a :: as, b :: bs => a = b && leadsWith as bs

/-- `param.endswith("-indexed")` (lines 134 and 169). -/
def endsIndexed (s : String) : Bool :=
  decide (s.data.reverse.take 8 = INDEXED_MARK.reverse)

/-- Everything before the first occurrence of `"-indexed"` in a character
list; the whole list when the marker does not occur. -/
def baseOfData : List Char → List Char
  | [] => []
  | c :: cs => if leadsWith INDEXED_MARK (c :: cs) then [] else c :: baseOfData cs

/-- `param.split("-indexed")[0]` (lines 135 and 170): the part of the key
before the first occurrence of `"-indexed"`. -/
def baseOf (s : String) : String := ⟨baseOfData s.data⟩

/-- The key normalization of phase 1.a (lines 134-135): keys ending in
`"-indexed"` are replaced by the base parameter name. -/
def stripKey (k : String) : String := if endsIndexed k then baseOf k else k

/-- `TaxParams.WAGE_INDEXED_PARAMS` (line 36). -/
def WAGE_INDEXED_PARAMS : List String := ["SS_Earnings_c", "SS_Earnings_thd"]

section StoreModel

variable {V : Type} [CommRing V] [DecidableEq V]

/-- Per-parameter record of `self._data[param]`: the `indexable`
declaration (immutable metadata from the defaults), the mutable
`indexed` flag, and the stored value objects. -/
structure ParamData (V : Type) where
  indexable : Bool
  indexed : Bool
  values : List (VO V)
deriving DecidableEq

/-- The `TaxParams` instance state acted on by `adjust`: the parameter
mapping `self._data` (an association list keyed by parameter name), the
`label_to_extend` and `array_first` toggles, the cached rate series
(assumed initialized, as they are by `__init__`'s full extension), the
year grid bounds, and `taxcalc.Policy.LAST_KNOWN_YEAR` (an external
constant, kept as a state component). -/
structure Store (V : Type) where
  data : List (String × ParamData V)
  labelToExtend : Option String
  arrayFirst : Bool
  inflationRates : List V
  wageGrowthRates : List V
  startYear : Int
  endYear : Int
  lastKnownYear : Int
deriving DecidableEq

/-- A parsed payload entry value (the per-key value of
`self.read_params(params_or_path)`): a list of value objects, a bare
boolean (legal for `"-indexed"` keys), a list of per-year booleans (the
list form for `"-indexed"` keys), or a value of any other shape. -/
inductive PVal (V : Type) where
  | vlist (l : List (VO V))
  | sbool (b : Bool)
  | blist (l : List (Int × Bool))
  | other
deriving DecidableEq

/-- The errors `adjust` can raise in its indexed-status phase:
`pt.ValidationError` for a non-indexable base parameter (lines 171-176;
the spec's `InvalidOperation`), the bare `Exception` for an index
adjustment that is neither a boolean nor a list (lines 184-187; the
spec's `MalformedInput`), the `KeyError` from `self._data[base_param]`
for an unknown base parameter, and the `ValueError` from
`min(indexed_changes.keys())` on an empty change set (line 191). -/
inductive AdjErr where
  | notIndexable (param : String)
  | malformedIndexValue
  | missingParam (param : String)
  | emptyIndexedChanges (param : String)
deriving DecidableEq

end StoreModel

section StoreOps

variable {V : Type} [CommRing V] [DecidableEq V]

/-- First-match association-list lookup (Python dict lookup). -/
def alookup {β : Type} : List (String × β) → String → Option β
  | [], _ => none
  | kv :: rest, p => if kv.1 = p then some kv.2 else alookup rest p

/-- Update the entry for `p` in `self._data` in place. -/
def updateParam (data : List (String × ParamData V)) (p : String)
    (f : ParamData V → ParamData V) : List (String × ParamData V) :=
  data.map (fun kv => if kv.1 = p then (kv.1, f kv.2) else kv)

/-- Stored value objects of a parameter (empty for an unknown name). -/
def valuesOf (data : List (String × ParamData V)) (p : String) : List (VO V) :=
  match alookup data p with
  | some pd => pd.values
  | none => []

/-- Smallest year among a list of value objects (`min(vos, key=year)`;
the list is nonempty wherever the code evaluates this). -/
def minYearD (l : List (VO V)) : Int :=
  match l with
  | [] => 0
  | v :: t => t.foldl (fun a vo => min a vo.year) v.year

/-- Smallest key of `indexed_changes` (`min(indexed_changes.keys())`;
nonempty wherever the code evaluates this). -/
def minKeyD (l : List (Int × Bool)) : Int :=
  match l with
  | [] => 0
  | x :: t => t.foldl (fun a c => min a c.1) x.1

/-- The inclusive year range `[a, b]` as a list (`range(a, b + 1)`). -/
def yearRange (a b : Int) : List Int :=
  (List.range (b + 1 - a).toNat).map (fun (i : Nat) => a + (i : Int))

/-- Modelled from the spec (§4.1 replace): `super().adjust({p: vos})`
with extension off — for each incoming value object, any existing value
object with the same year is removed and the new one inserted. -/
def applyVOs (old upd : List (VO V)) : List (VO V) :=
  upd.foldl (fun cur vo => cur.filter (fun w => decide (w.year ≠ vo.year)) ++ [vo]) old

/-- `super().adjust({p: vos}, ...)` with `label_to_extend` disabled:
plain application of the value objects to parameter `p`. -/
def superApply (st : Store V) (p : String) (vos : List (VO V)) : Store V :=
  let d := updateParam st.data p (fun pd => { pd with values := applyVOs pd.values vos })
  { st with data := d }

/-- `super().adjust({p: [dict(vo, value=None) for vo in select_gt(p, y)]})`:
delete every stored value object of `p` with year strictly greater than
`y` (lines 137-142, 202-213, 227-234). -/
def superDelete (st : Store V) (p : String) (y : Int) : Store V :=
  let d := updateParam st.data p (fun pd => { pd with values := deleteGT pd.values y })
  { st with data := d }

/-- Setting `self._data[base_param]["indexed"]` (line 248). -/
def setIndexed (st : Store V) (p : String) (b : Bool) : Store V :=
  { st with data := updateParam st.data p (fun pd => { pd with indexed := b }) }

/-- `TaxParams.get_index_rate` (lines 288-300): wage growth rate for the
wage-indexed parameters, inflation rate otherwise, read at offset
`year - start_year`.  The lazy `set_rates` call is elided: the model
assumes the caches are initialized, as they are after construction. -/
def get_index_rate (st : Store V) (param : String) (y : Int) : V :=
  if param ∈ WAGE_INDEXED_PARAMS then
    st.wageGrowthRates.getD (y - st.startYear).toNat 0
  else
    st.inflationRates.getD (y - st.startYear).toNat 0

/-- The stored value of parameter `p` at year `y`, when present. -/
def valueAtYear (vos : List (VO V)) (y : Int) : Option V :=
  (vos.find? (fun vo => decide (vo.year = y))).map (fun vo => vo.value)

/-- Modelled from the spec (§4.3): one filling step of the Extension
Engine on the association-list representation — if year `y` has no
stored value and year `y - 1` does, append
`value[y-1] * (1 + rate_for(param, y))` for an indexed parameter and
`value[y-1]` unchanged for a non-indexed one (spec §3: only indexed
parameters grow; others are carried forward). -/
def fillYearStep (st : Store V) (data : List (String × ParamData V))
    (p : String) (y : Int) : List (String × ParamData V) :=
  match alookup data p with
  | none => data
  | some pd =>
    match valueAtYear pd.values y with
    | some _ => data
    | none =>
      match valueAtYear pd.values (y - 1) with
      | none => data
      | some v =>
        let w := if pd.indexed then v * (1 + get_index_rate st p y) else v
        updateParam data p (fun pd2 => { pd2 with values := pd2.values ++ [⟨y, w⟩] })

/-- Modelled from the spec (§4.3): `self.extend(params=[p],
label_to_extend="year", label_to_extend_values=ys)` — fill the missing
years of `p` among `ys`, in ascending order.  Only the `data` component
changes; the rate caches of `st` supply the rates. -/
def fillYearsData (st : Store V) (data : List (String × ParamData V))
    (p : String) (ys : List Int) : List (String × ParamData V) :=
  ys.foldl (fun d y => fillYearStep st d p y) data

/-- `self.extend(params=[p], ...)` as a store transformer. -/
def fillP (st : Store V) (p : String) (ys : List Int) : Store V :=
  { st with data := fillYearsData st st.data p ys }

/-- `self.extend(label_to_extend="year")` (line 163): extend every
parameter across the full year grid. -/
def extendAllParams (st : Store V) : Store V :=
  let d := (st.data.map Prod.fst).foldl
    (fun d p => fillYearsData st d p (yearRange st.startYear st.endYear)) st.data
  { st with data := d }

end StoreOps

section OffsetPhase

variable {V : Type} [CommRing V] [DecidableEq V]

/-- The value the extended `CPI_offset` series holds at year `y` after
the payload `entries` have been applied: the value of the entry with the
greatest year not exceeding `y` (`d` when there is none). -/
def offsetValueAt (entries : List (VO V)) (d : V) (y : Int) : V :=
  let best := entries.foldl
    (fun acc vo =>
      if vo.year ≤ y then
        match acc with
        | none => some vo
        | some w => if w.year ≤ vo.year then some vo else some w
      else acc)
    (none : Option (VO V))
  match best with
  | some vo => vo.value
  | none => d

/-- Modelled from the spec: `super().adjust({"CPI_offset": ...})` at
line 109 runs with `label_to_extend = "year"` still active, so the
base-class adjust (not in this repository's sources) both applies the
payload and re-extends: stored offset values from the first changed year
on are replaced, each payload value being carried forward to the next
explicitly given year and through the end of the horizon (spec §4.2
"offset carried forward from its last explicit year", §4.4 phase 1). -/
def cpiUpdate (st : Store V) (entries : List (VO V)) : Store V :=
  let y0 := minYearD entries
  let f := fun (pd : ParamData V) =>
    { pd with values :=
        pd.values.filter (fun vo => decide (vo.year < y0)) ++
          (yearRange y0 st.endYear).map (fun y => ⟨y, offsetValueAt entries 0 y⟩) }
  let d := updateParam st.data "CPI_offset" f
  { st with data := d }

/-- One `+=` step of the rate-adjustment loop (lines 125-127):
`self._inflation_rates[i] += value` on the inflation rate list. -/
def bumpAt : List V → Nat → V → List V
  | [], _, _ => []
  | x :: xs, 0, d => (x + d) :: xs
  | x :: xs, n + 1, d => x :: bumpAt xs n d

/-- The rate-adjustment loop of the offset phase (lines 122-127): select
the updated `CPI_offset` value objects with year greater than
`cpi_min_year - 1` and add each one's value to the inflation rate at
offset `year - start_year`. -/
def bumpRates (st : Store V) (y0 : Int) : Store V :=
  let vos := selectGT (valuesOf st.data "CPI_offset") (y0 - 1)
  let r := vos.foldl (fun r vo => bumpAt r (vo.year - st.startYear).toNat vo.value) st.inflationRates
  { st with inflationRates := r }

/-- The parameters targeted by the reset step 1.a (lines 130-141): for
each payload key, skip `CPI_offset` and the wage-indexed parameters
(this check reads the *raw* key, before the `"-indexed"` suffix is
stripped), strip the suffix, and keep the name when its `indexed` flag
is set.  Keys naming unknown parameters are skipped (the Python relies
on `read_params` having validated them). -/
def phase1aTargets (data : List (String × ParamData V)) (keys : List String) :
    List String :=
  keys.filterMap (fun k =>
    if k = "CPI_offset" ∨ k ∈ WAGE_INDEXED_PARAMS then none
    else
      let p := stripKey k
      match alookup data p with
      | some pd => if pd.indexed then some p else none
      | none => none)

/-- The parameters targeted by the reset step 1.b (lines 144-159): every
stored parameter that is not a payload key, not `CPI_offset`, not
wage-indexed, and currently indexed. -/
def phase1bTargets (data : List (String × ParamData V)) (keys : List String) :
    List String :=
  (data.map Prod.fst).filterMap (fun p =>
    if p ∈ keys ∨ p = "CPI_offset" ∨ p ∈ WAGE_INDEXED_PARAMS then none
    else
      match alookup data p with
      | some pd => if pd.indexed then some p else none
      | none => none)

/-- Apply one of the offset phase's `super().adjust(to_delete)` calls
(lines 142 and 161): delete, for each targeted parameter, its value
objects with year strictly greater than `y`. -/
def deleteForTargets (data : List (String × ParamData V)) (targets : List String)
    (y : Int) : List (String × ParamData V) :=
  targets.foldl
    (fun d p => updateParam d p (fun pd => { pd with values := deleteGT pd.values y }))
    data

/-- The deletion map built by step 1.a (the `to_delete` dict of
lines 130-141), recorded as the deleted years per parameter. -/
def phase1aDeleteYears (data : List (String × ParamData V)) (keys : List String)
    (y0 : Int) : List (String × List Int) :=
  (phase1aTargets data keys).map
    (fun p => (p, (selectGT (valuesOf data p) y0).map (fun vo => vo.year)))

/-- The deletion map built by step 1.b (the `to_delete` dict of
lines 144-159), recorded as the deleted years per parameter; `lky` is
`max(cpi_min_year, self._last_known_year)` (line 146). -/
def phase1bDeleteYears (data : List (String × ParamData V)) (keys : List String)
    (lky : Int) : List (String × List Int) :=
  (phase1bTargets data keys).map
    (fun p => (p, (selectGT (valuesOf data p) lky).map (fun vo => vo.year)))

/-- The offset phase of `adjust` (lines 106-161) up to but excluding the
final re-extension: update `CPI_offset`, turn extension off, adjust the
inflation rates, then run the two deletion steps. -/
def offsetPhaseCore (st : Store V) (entries : List (VO V)) (keys : List String) :
    Store V × List String :=
  let st1 := cpiUpdate st entries
  let st2 := { st1 with labelToExtend := none }
  let y0 := minYearD entries
  let st3 := bumpRates st2 y0
  let t1a := phase1aTargets st3.data keys
  let st4 := { st3 with data := deleteForTargets st3.data t1a y0 }
  let lky := max y0 st.lastKnownYear
  let t1b := phase1bTargets st4.data keys
  let st5 := { st4 with data := deleteForTargets st4.data t1b lky }
  (st5, t1a ++ t1b)

/-- The full offset phase (lines 106-163): the deletion steps followed by
`self.extend(label_to_extend="year")`, returning the updated store and
the `needs_reset` names collected so far. -/
def offsetPhase (st : Store V) (entries : List (VO V)) (keys : List String) :
    Store V × List String :=
  let r := offsetPhaseCore st entries keys
  (extendAllParams r.1, r.2)

end OffsetPhase

section IndexedStatusPhase

variable {V : Type} [CommRing V] [DecidableEq V]

/-- Running state of the indexed-status loop (lines 165-261): the store,
the `index_affected` set, the `needs_reset` list, and the first raised
error, if any (an exception aborts the loop and propagates). -/
structure P2Res (V : Type) where
  st : Store V
  indexAffected : List String
  needsReset : List String
  err : Option AdjErr
deriving DecidableEq

/-- Parse a `"-indexed"` payload value into the `indexed_changes` map
(lines 178-187): a bare boolean becomes a change at the first grid year;
a list contributes one change per entry, later entries overwriting
earlier ones for the same year (dict assignment); any other shape raises
the `Exception` of lines 184-187.  The model keeps the change map as a
year-keyed list with the last binding per year. -/
def buildChanges (v : PVal V) (minY : Int) : Option (List (Int × Bool)) :=
  match v with
  | .sbool b => some [(minY, b)]
  | .blist l => some (l.foldl (fun acc c => acc.filter (fun c2 => decide (c2.1 ≠ c.1)) ++ [c]) [])
  | _ => none

/-- Insert into a year-sorted change list (used to model
`sorted(indexed_changes)`). -/
def insertByYear (x : Int × Bool) : List (Int × Bool) → List (Int × Bool)
  | [] => [x]
  | y :: ys => if x.1 ≤ y.1 then x :: y :: ys else y :: insertByYear x ys

/-- `sorted(indexed_changes)` (line 223): the change map ordered by
ascending year. -/
def sortByYear (l : List (Int × Bool)) : List (Int × Bool) :=
  l.foldr insertByYear []

/-- The payload value objects for a base parameter
(`params[base_param]`); payload values of any non-list shape contribute
no value objects. -/
def payloadVOsFor (payload : List (String × PVal V)) (p : String) : List (VO V) :=
  match alookup payload p with
  | some (.vlist l) => l
  | _ => []

/-- Step 2.a (lines 188-221): when the base parameter also has explicit
payload values before the first status-change year `micy`, delete its
stored values after the earliest such payload year, apply that early
slice, and re-extend it up to `micy - 1` (`range(min_year,
min_index_change_year)`). -/
def phase2a (st : Store V) (base : String) (pvos : List (VO V)) (minY micy : Int) :
    Store V :=
  let vos := pvos.filter (fun vo => decide (vo.year < micy))
  if vos.isEmpty then st
  else
    let minAdj := minYearD vos
    let s1 := superDelete st base minAdj
    let s2 := superApply s1 base vos
    fillP s2 base (yearRange minY (micy - 1))

/-- One iteration of the status-change loop (lines 223-259) for the
change `(year, value)`: delete stored values after `year` (2., lines
227-234), extend up to `year` when it is past the first grid year (2.b,
lines 238-245), flip the indexed flag (2.c, line 248), apply payload
values with year greater than `year - 1` when the base parameter is in
the payload (2.d, lines 252-256), and re-extend through the horizon
(2.e, line 259). -/
def phase2loopStep (minY : Int) (baseInKeys : Bool) (pvos : List (VO V))
    (base : String) (st : Store V) (ch : Int × Bool) : Store V :=
  let st1 := superDelete st base ch.1
  let st2 := if minY < ch.1 then fillP st1 base (yearRange minY ch.1) else st1
  let st3 := setIndexed st2 base ch.2
  let st4 := if baseInKeys then superApply st3 base (phase2dSelect pvos ch.1) else st3
  fillP st4 base (yearRange minY st4.endYear)

/-- Process one payload entry in the indexed-status phase (lines
168-261).  Entries whose key does not end in `"-indexed"` are skipped.
For a `"-indexed"` key: unknown base parameters raise (the `KeyError` of
`self._data[base_param]`); a base parameter that is not indexable raises
the `pt.ValidationError` of lines 171-176; the value is parsed into the
change map (raising for a malformed shape); when the base parameter is
in the payload but the change map is empty, `min(indexed_changes.keys())`
raises (line 191); otherwise step 2.a runs, then the sorted change loop,
and the base parameter is appended to `needs_reset` (line 261).  A
previously raised error makes the step a no-op (the exception has
already aborted the loop). -/
def phase2step (minY : Int) (payload : List (String × PVal V)) (r : P2Res V)
    (entry : String × PVal V) : P2Res V :=
  match r.err with
  | some _ => r
  | none =>
    if endsIndexed entry.1 then
      let base := baseOf entry.1
      match alookup r.st.data base with
      | none => { r with err := some (.missingParam base) }
      | some pd =>
        if pd.indexable = false then { r with err := some (.notIndexable base) }
        else
          let ia := r.indexAffected ++ [entry.1, base]
          match buildChanges entry.2 minY with
          | none => { r with indexAffected := ia, err := some .malformedIndexValue }
          | some changes =>
            let baseInKeys := decide (base ∈ payload.map Prod.fst)
            let pvos := payloadVOsFor payload base
            if baseInKeys ∧ changes.isEmpty then
              { r with indexAffected := ia, err := some (.emptyIndexedChanges base) }
            else
              let st1 := if baseInKeys then
                  phase2a r.st base pvos minY (minKeyD changes)
                else r.st
              let st2 := (sortByYear changes).foldl
                (phase2loopStep minY baseInKeys pvos base) st1
              { st := st2, indexAffected := ia,
                needsReset := r.needsReset ++ [base], err := none }
    else r

end IndexedStatusPhase

section Adjust

variable {V : Type} [CommRing V] [DecidableEq V]

/-- The result of an `adjust` call: the raised error if any (`err =
none` means the call returned), the returned parsed adjustment, and the
instance state when the call ends — on an exception, the state at the
raise site (Python mutates `self` in place, so a failed call leaves the
mutations made before the raise). -/
structure AdjResult (V : Type) where
  err : Option AdjErr
  report : List (String × PVal V)
  st : Store V
deriving DecidableEq

/-- The store state entering the indexed-status phase: `array_first`
cleared (line 98), the offset phase applied when the payload adjusts
`CPI_offset` (lines 106-163), and `label_to_extend` cleared (line 166). -/
def phase2Start (st0 : Store V) (payload : List (String × PVal V)) : Store V :=
  let stA := { st0 with arrayFirst := false }
  let stB :=
    match alookup payload "CPI_offset" with
    | some (.vlist entries) => (offsetPhase stA entries (payload.map Prod.fst)).1
    | _ => stA
  { stB with labelToExtend := none }

/-- The plain-value phase (line 277): `super().adjust(nonindexed_params)`
with the restored `label_to_extend`/`array_first`.  Modelled from the
spec (§4.1 replace, §4.4 phase 3): each entry's value objects are
applied, and when extension is active the store is re-extended. -/
def phase3 (st : Store V) (entries : List (String × PVal V)) : Store V :=
  let d1 := entries.foldl
    (fun d kv =>
      match kv.2 with
      | .vlist vos => updateParam d kv.1 (fun pd => { pd with values := applyVOs pd.values vos })
      | _ => d)
    st.data
  let st1 := { st with data := d1 }
  if st1.labelToExtend.isSome then extendAllParams st1 else st1

/-- `TaxParams.adjust` (lines 50-286).  The saved `label_to_extend` and
`array_first` (lines 96-97) are restored only on the successful path
(lines 263-264); an exception raised in the indexed-status phase
propagates with the store as mutated so far.  `needs_reset` drives
`self._set_state(params=needs_reset)` (lines 272-274), which recomputes
the dense value arrays; those arrays are derived views not modelled
here, so that call has no effect on this state.  The returned report is
the non-indexing adjustment merged with the indexing entries of the
payload (lines 277-285). -/
def adjust (st0 : Store V) (payload : List (String × PVal V)) : AdjResult V :=
  let minY := st0.startYear
  let l2e := st0.labelToExtend
  let af := st0.arrayFirst
  let r := payload.foldl (phase2step minY payload)
    { st := phase2Start st0 payload, indexAffected := [], needsReset := [], err := none }
  match r.err with
  | some e => { err := some e, report := [], st := r.st }
  | none =>
    let stD := { r.st with labelToExtend := l2e, arrayFirst := af }
    let nonindexed := payload.filter (fun kv => decide (kv.1 ∉ r.indexAffected))
    let stE := phase3 stD nonindexed
    { err := none,
      report := nonindexed ++ payload.filter (fun kv => decide (kv.1 ∈ r.indexAffected)),
      st := stE }

end Adjust

section ClaimStatements

variable {V : Type} [CommRing V] [DecidableEq V]

/-- Claim C1 as stated, evaluated on the offset phase's deletion maps:
(i) parameters explicitly adjusted in the call are deferred to the
plain-value phase, i.e. neither reset step touches any payload key, and
(ii) every currently-indexed stored parameter that is not explicitly
adjusted has exactly its values for years `≥ first_changed_year` (`y0`)
reset.  This definition follows the claim's words and is compared
against the deletion maps computed from the code. -/
def c1ClaimHolds (data : List (String × ParamData V)) (keys : List String)
    (y0 lky : Int) : Bool :=
  let d1a := phase1aDeleteYears data keys y0
  let d1b := phase1bDeleteYears data keys lky
  keys.all (fun k => (alookup d1a k).isNone && (alookup d1b k).isNone) &&
    (data.map Prod.fst).all (fun p =>
      if p ∈ keys then true
      else
        match alookup data p with
        | some pd =>
          if pd.indexed then
            ((alookup d1a p).getD [] ++ (alookup d1b p).getD []) =
              (pd.values.filter (fun vo => decide (y0 ≤ vo.year))).map (fun vo => vo.year)
          else true
        | none => true)

/-- Claim C8 as stated, evaluated on the offset phase's deletion maps:
both reset steps skip every wage-indexed parameter, so neither deletion
map removes any year from `SS_Earnings_c` or `SS_Earnings_thd`.  This
definition follows the claim's words and is compared against the
deletion maps computed from the code. -/
def c8ClaimHolds (data : List (String × ParamData V)) (keys : List String)
    (y0 lky : Int) : Bool :=
  WAGE_INDEXED_PARAMS.all (fun w =>
    ((alookup (phase1aDeleteYears data keys y0) w).getD []).isEmpty &&
      ((alookup (phase1bDeleteYears data keys lky) w).getD []).isEmpty)

end ClaimStatements

/-- Fixture for claim C1: a store with `CPI_offset`, an indexed parameter
`A` that the payload adjusts, and an indexed parameter `B` that it does
not. -/
def c1Data : List (String × ParamData Int) :=
  [("CPI_offset", ⟨false, false, [⟨2013, 0⟩, ⟨2014, 0⟩, ⟨2015, 0⟩, ⟨2016, 0⟩, ⟨2017, 0⟩, ⟨2018, 0⟩]⟩),
   ("A", ⟨true, true, [⟨2013, 10⟩, ⟨2014, 11⟩, ⟨2015, 12⟩, ⟨2016, 13⟩, ⟨2017, 14⟩, ⟨2018, 15⟩]⟩),
   ("B", ⟨true, true, [⟨2013, 20⟩, ⟨2014, 21⟩, ⟨2015, 22⟩, ⟨2016, 23⟩, ⟨2017, 24⟩, ⟨2018, 25⟩]⟩)]

/-- Payload keys for the C1 fixture: `CPI_offset` changes and `A` is
explicitly adjusted. -/
def c1Keys : List String := ["CPI_offset", "A"]

/-- Fixture for claim C8: a store where the wage-indexed parameter
`SS_Earnings_c` is indexed, with a payload that changes `CPI_offset` and
the indexed status of `SS_Earnings_c`. -/
def c8Data : List (String × ParamData Int) :=
  [("CPI_offset", ⟨false, false, [⟨2013, 0⟩, ⟨2014, 0⟩, ⟨2015, 0⟩, ⟨2016, 0⟩, ⟨2017, 0⟩, ⟨2018, 0⟩]⟩),
   ("SS_Earnings_c", ⟨true, true, [⟨2013, 100⟩, ⟨2014, 110⟩, ⟨2015, 120⟩, ⟨2016, 130⟩, ⟨2017, 140⟩, ⟨2018, 150⟩]⟩)]

/-- Payload keys for the C8 fixture. -/
def c8Keys : List String := ["CPI_offset", "SS_Earnings_c-indexed"]

/-- Fixture for claim C1's amended statement: the C1 data as a full store. -/
def c1Store : Store Int :=
  { data := c1Data, labelToExtend := some "year", arrayFirst := true,
    inflationRates := [0, 0, 0, 0, 0, 0], wageGrowthRates := [0, 0, 0, 0, 0, 0],
    startYear := 2013, endYear := 2018, lastKnownYear := 2017 }

/-- Fixture for claim C8's amended statement: the C8 data as a full store. -/
def c8Store : Store Int :=
  { data := c8Data, labelToExtend := some "year", arrayFirst := true,
    inflationRates := [0, 0, 0, 0, 0, 0], wageGrowthRates := [0, 0, 0, 0, 0, 0],
    startYear := 2013, endYear := 2018, lastKnownYear := 2017 }

/-- Fixture for claim C2: a store with an indexed parameter `A` and a
non-indexable parameter `X`, fully extended over 2013-2015. -/
def c2Store : Store Int :=
  { data := [("CPI_offset", ⟨false, false, [⟨2013, 0⟩, ⟨2014, 0⟩, ⟨2015, 0⟩]⟩),
             ("A", ⟨true, true, [⟨2013, 100⟩, ⟨2014, 102⟩, ⟨2015, 104⟩]⟩),
             ("X", ⟨false, false, [⟨2013, 1⟩, ⟨2014, 1⟩, ⟨2015, 1⟩]⟩)],
    labelToExtend := some "year", arrayFirst := true,
    inflationRates := [2, 2, 2], wageGrowthRates := [1, 1, 1],
    startYear := 2013, endYear := 2015, lastKnownYear := 2014 }

/-- Fixture for claim C2: a payload that changes `CPI_offset` and then
hits the non-indexable error on `X-indexed`. -/
def c2Payload : List (String × PVal Int) :=
  [("CPI_offset", .vlist [⟨2014, 5⟩]), ("X-indexed", .sbool true)]

/-- Fixture for claim C2's amended statement: the same failing
`"-indexed"` entry as the payload's only (hence first) entry, with no
`CPI_offset` change. -/
def c2Payload' : List (String × PVal Int) :=
  [("X-indexed", .sbool true)]

/-- Fixture for claim C6: a store whose parameter `Foo` is not declared
indexable. -/
def c6Store : Store Int :=
  { data := [("Foo", ⟨false, false, [⟨2013, 3⟩]⟩)],
    labelToExtend := some "year", arrayFirst := true,
    inflationRates := [0], wageGrowthRates := [0],
    startYear := 2013, endYear := 2013, lastKnownYear := 2013 }

/-- Fixture for claim C6: a payload with an indexed-status entry for the
non-indexable `Foo`. -/
def c6Payload : List (String × PVal Int) :=
  [("Foo-indexed", .sbool true)]

/-- Fixture for claim C3's witness: a small store with a `CPI_offset`
parameter and known inflation rates over 2013-2015. -/
def c3Store : Store Int :=
  { data := [("CPI_offset", ⟨false, false, [⟨2013, 0⟩, ⟨2014, 0⟩, ⟨2015, 0⟩]⟩)],
    labelToExtend := some "year", arrayFirst := true,
    inflationRates := [10, 20, 30], wageGrowthRates := [0, 0, 0],
    startYear := 2013, endYear := 2015, lastKnownYear := 2014 }

/-- Fixture for claim C9's witness: a minimal store on which `adjust`
with an empty payload succeeds. -/
def c9Store : Store Int :=
  { data := [("P", ⟨true, true, [⟨2013, 7⟩]⟩)],
    labelToExtend := some "year", arrayFirst := true,
    inflationRates := [0], wageGrowthRates := [0],
    startYear := 2013, endYear := 2013, lastKnownYear := 2013 }

/-- C5 counterexample: at status-change year 2020, a payload entry for
year 2019 (= Y - 1) is *not* applied by phase 2.d — the code's strict
`select_gt` on `year - 1` disagrees with the claimed `≥ Y - 1`
selection at this input. -/
theorem c5_counterexample :
    phase2dSelect [(⟨2019, (10 : Int)⟩ : VO Int)] 2020 ≠
      phase2dSelectClaimed [(⟨2019, (10 : Int)⟩ : VO Int)] 2020 := by
  decide

/-- C5 (amended): after the indexed flag flips at year `Y`, the payload
entries applied by phase 2.d are exactly those with year strictly
greater than `Y - 1`, i.e. year `≥ Y` — not year `≥ Y - 1` as claimed. -/
theorem c5_applied_entries {V : Type} [CommRing V] [DecidableEq V]
    (vos : List (VO V)) (year : Int) :
    phase2dSelect vos year = vos.filter (fun vo => decide (year ≤ vo.year)) := by
  unfold phase2dSelect
  apply List.filter_congr
  intro vo _
  rw [decide_eq_decide]
  omega

/-- C10: with no year argument and an uninitialized cache, both
accessors return the empty list (never `None`); with a year argument and
an initialized cache, each returns the cached rate at index
`year - start_year`. -/
theorem c10_rate_accessors (c : List Rat) (year startYear : Int)
    (h : (year - startYear).toNat < c.length) :
    inflation_rates_no_year none = [] ∧
    wage_growth_rates_no_year none = [] ∧
    inflation_rates_at_year (some c) year startYear =
      some (c.get ⟨(year - startYear).toNat, h⟩) ∧
    wage_growth_rates_at_year (some c) year startYear =
      some (c.get ⟨(year - startYear).toNat, h⟩) := by
  refine ⟨rfl, rfl, ?_, ?_⟩ <;>
    simp [inflation_rates_at_year, wage_growth_rates_at_year,
      List.getD_eq_getElem _ _ h, List.getElem?_eq_getElem h]

/-- C10 witness: the accessors evaluated on a concrete two-entry cache. -/
theorem c10_rate_accessors_witness :
    ((2014 : Int) - 2013).toNat < ([(5 : Rat), 7]).length ∧
    inflation_rates_at_year (some [(5 : Rat), 7]) 2014 2013 =
      some (([(5 : Rat), 7]).get ⟨((2014 : Int) - 2013).toNat, by decide⟩) :=
  ⟨by decide, (c10_rate_accessors [(5 : Rat), 7] 2014 2013 (by decide)).2.2.1⟩

/-- C1 counterexample: with `CPI_offset` changed at 2015, parameter `A`
explicitly adjusted and parameter `B` untouched (`last_known_year`
2017), the offset phase's deletion maps refute the claim as stated: `A`
is reset in step 1.a (not deferred), and `B` is reset only for years
strictly after `max(2015, 2017) = 2017`, not for all years `≥ 2015`. -/
theorem c1_counterexample : c1ClaimHolds c1Data c1Keys 2015 2017 = false := by
  decide

/-- C8 counterexample: a payload changing `CPI_offset` together with
`SS_Earnings_c-indexed` refutes the claim as stated: step 1.a tests the
raw key against the wage-indexed set *before* stripping `"-indexed"`,
so the wage-indexed parameter `SS_Earnings_c` is reset after the first
changed year 2015. -/
theorem c8_counterexample : c8ClaimHolds c8Data c8Keys 2015 2017 = false := by
  decide

theorem cpiExtended_getD (cpiVals : List Rat) (ix : Nat) (hix : ix < 18) :
    (cpiExtended cpiVals).getD ix 0 =
      (if ix < cpiVals.length then cpiVals.getD ix 0 else cpiVals.getLastD 0) := by
  unfold cpiExtended
  by_cases hc : ix < cpiVals.length
  · rw [List.getD_append _ _ _ _ hc, if_pos hc]
  · push_neg at hc
    rw [List.getD_append_right _ _ _ _ hc, if_neg (by omega)]
    have hr : ix - cpiVals.length < 18 - cpiVals.length := by omega
    rw [List.getD_eq_getElem _ _ (by simpa using hr), List.getElem_replicate]

/-- C4 (amended): `set_rates` produces, at every index of the 18-year
window, the inflation rate `round4(base_price + offset)` with the offset
carried forward from its last explicit entry when the stored series is
shorter than the window, while the wage series is returned exactly as
provided — *without* rounding. -/
theorem c4_set_rates (cpiVals basePrice baseWage : List Rat)
    (_h1 : cpiVals ≠ []) (h2 : basePrice.length = 18) :
    (set_rates cpiVals basePrice baseWage).2 = baseWage ∧
    (set_rates cpiVals basePrice baseWage).1.length = 18 ∧
    ∀ ix : Nat, ix < 18 →
      (set_rates cpiVals basePrice baseWage).1.getD ix 0 =
        round4 (basePrice.getD ix 0 +
          (if ix < cpiVals.length then cpiVals.getD ix 0 else cpiVals.getLastD 0)) := by
  refine ⟨rfl, by simp [set_rates, h2], ?_⟩
  intro ix hix
  have hlen : ix < basePrice.length := by omega
  unfold set_rates
  rw [List.getD_eq_getElem _ _ (by simpa using hlen), List.getElem_map,
    List.getElem_range, cpiExtended_getD cpiVals ix hix]

/-- C4 witness: the amended statement evaluated on a concrete zero
offset series and 18-entry base rate lists. -/
theorem c4_set_rates_witness :
    ([(0 : Rat)] ≠ []) ∧ (List.replicate 18 (0 : Rat)).length = 18 ∧
    (set_rates [(0 : Rat)] (List.replicate 18 0) (List.replicate 18 0)).2 =
      List.replicate 18 (0 : Rat) :=
  ⟨by simp, by simp,
    (c4_set_rates [0] (List.replicate 18 0) (List.replicate 18 0)
      (by simp) (by simp)).1⟩

/-- C4 counterexample: a base wage rate of `0.00012` is returned by
`set_rates` unrounded, while the claim's 4-digit rounding would produce
`0.0001` — the wage series is not rounded. -/
theorem c4_counterexample :
    (set_rates [0] (List.replicate 18 (0 : Rat))
        (List.replicate 18 ((12 : Rat) / 100000))).2.getD 0 0 ≠
      (c4ClaimedWage (List.replicate 18 ((12 : Rat) / 100000))).getD 0 0 := by
  have h1 : (set_rates [0] (List.replicate 18 (0 : Rat))
      (List.replicate 18 ((12 : Rat) / 100000))).2.getD 0 0 = (12 : Rat) / 100000 := by
    show (List.replicate 18 ((12 : Rat) / 100000)).getD 0 0 = (12 : Rat) / 100000
    rw [List.getD_eq_getElem _ _ (by simp), List.getElem_replicate]
  have h2 : (c4ClaimedWage (List.replicate 18 ((12 : Rat) / 100000))).getD 0 0 =
      round4 ((12 : Rat) / 100000) := by
    unfold c4ClaimedWage
    rw [List.map_replicate, List.getD_eq_getElem _ _ (by simp), List.getElem_replicate]
  rw [h1, h2]
  have h3 : round4 ((12 : Rat) / 100000) = 1 / 10000 := by
    unfold round4
    rw [show (12 : Rat) / 100000 * 10000 = 6 / 5 by norm_num,
      show round ((6 : Rat) / 5) = 1 by norm_num [round_eq, Int.floor_eq_iff]]
    norm_num
  rw [h3]
  norm_num

theorem deleteGT_deleteGT_of_le {V : Type} [CommRing V] [DecidableEq V]
    (vos : List (VO V)) (y z : Int) (h : y ≤ z) :
    deleteGT (deleteGT vos y) z = deleteGT vos y := by
  unfold deleteGT
  rw [List.filter_filter]
  apply List.filter_congr
  intro vo _
  by_cases hvo : vo.year ≤ y
  · have hz : vo.year ≤ z := by omega
    simp [hvo, hz]
  · simp [hvo]

theorem alookup_updateParam {V : Type} [CommRing V] [DecidableEq V]
    (data : List (String × ParamData V)) (p q : String)
    (f : ParamData V → ParamData V) :
    alookup (updateParam data p f) q =
      if q = p then (alookup data q).map f else alookup data q := by
  induction data with
  | nil =>
    simp only [updateParam, List.map_nil, alookup, Option.map_none']
    split <;> rfl
  | cons kv d ih =>
    simp only [updateParam, List.map_cons] at *
    by_cases h1 : kv.1 = p
    · by_cases h2 : q = p
      · subst h2
        simp [alookup, h1, ih]
      · have hpq : ¬ p = q := fun hc => h2 hc.symm
        simp [alookup, h1, hpq, ih, h2]
    · by_cases h2 : kv.1 = q
      · have : ¬ q = p := by rw [← h2]; exact fun hc => h1 hc
        simp [alookup, h1, h2, this]
      · simp [alookup, h1, h2, ih]

theorem keys_updateParam {V : Type} [CommRing V] [DecidableEq V]
    (data : List (String × ParamData V)) (p : String)
    (f : ParamData V → ParamData V) :
    (updateParam data p f).map Prod.fst = data.map Prod.fst := by
  unfold updateParam
  rw [List.map_map]
  apply List.map_congr_left
  intro kv _
  by_cases h : kv.1 = p <;> simp [h]

theorem alookup_some_mem {V : Type} [CommRing V] [DecidableEq V]
    (data : List (String × ParamData V)) (p : String) (pd : ParamData V)
    (h : alookup data p = some pd) : p ∈ data.map Prod.fst := by
  induction data with
  | nil => simp [alookup] at h
  | cons kv d ih =>
    by_cases h1 : kv.1 = p
    · simp [h1]
    · simp only [alookup, h1, if_false] at h
      simp [ih h]

theorem alookup_deleteForTargets {V : Type} [CommRing V] [DecidableEq V]
    (ts : List String) (data : List (String × ParamData V)) (y : Int) (q : String) :
    alookup (deleteForTargets data ts y) q =
      if q ∈ ts then
        (alookup data q).map (fun pd => { pd with values := deleteGT pd.values y })
      else alookup data q := by
  induction ts generalizing data with
  | nil => simp [deleteForTargets]
  | cons t ts' ih =>
    have hstep : deleteForTargets data (t :: ts') y =
        deleteForTargets
          (updateParam data t (fun pd => { pd with values := deleteGT pd.values y }))
          ts' y := rfl
    rw [hstep, ih, alookup_updateParam]
    by_cases h1 : q ∈ ts'
    · by_cases h2 : q = t
      · rw [if_pos h1, if_pos h2, if_pos (by simp [h2])]
        cases halo : alookup data q with
        | none => rfl
        | some pd =>
          simp only [Option.map_some']
          congr 1
          simp [deleteGT_deleteGT_of_le pd.values y y le_rfl]
      · rw [if_pos h1, if_neg h2, if_pos (by simp [h1])]
    · by_cases h2 : q = t
      · rw [if_neg h1, if_pos h2, if_pos (by simp [h2])]
      · rw [if_neg h1, if_neg h2, if_neg (by simp [h1, h2])]

theorem keys_deleteForTargets {V : Type} [CommRing V] [DecidableEq V]
    (ts : List String) (data : List (String × ParamData V)) (y : Int) :
    (deleteForTargets data ts y).map Prod.fst = data.map Prod.fst := by
  induction ts generalizing data with
  | nil => rfl
  | cons t ts' ih =>
    have hstep : deleteForTargets data (t :: ts') y =
        deleteForTargets
          (updateParam data t (fun pd => { pd with values := deleteGT pd.values y }))
          ts' y := rfl
    rw [hstep, ih, keys_updateParam]

theorem phase1aTargets_congr {V : Type} [CommRing V] [DecidableEq V]
    (data data' : List (String × ParamData V)) (keys : List String)
    (hsame : ∀ q, (alookup data' q).map ParamData.indexed =
      (alookup data q).map ParamData.indexed) :
    phase1aTargets data' keys = phase1aTargets data keys := by
  unfold phase1aTargets
  apply List.filterMap_congr
  intro k _
  by_cases hc : k = "CPI_offset" ∨ k ∈ WAGE_INDEXED_PARAMS
  · simp [hc]
  · simp only [if_neg hc]
    have h := hsame (stripKey k)
    cases h1 : alookup data (stripKey k) with
    | none =>
      rw [h1] at h
      have h2 : alookup data' (stripKey k) = none := by
        cases h2 : alookup data' (stripKey k) with
        | none => rfl
        | some pd' => rw [h2] at h; simp at h
      rw [h2]
    | some pd =>
      rw [h1] at h
      obtain ⟨pd', h2, h3⟩ : ∃ pd', alookup data' (stripKey k) = some pd' ∧
          pd'.indexed = pd.indexed := by
        cases h2 : alookup data' (stripKey k) with
        | none => rw [h2] at h; simp at h
        | some pd' => rw [h2] at h; simp at h; exact ⟨pd', rfl, h⟩
      rw [h2]
      dsimp only
      rw [h3]

theorem phase1bTargets_congr {V : Type} [CommRing V] [DecidableEq V]
    (data data' : List (String × ParamData V)) (keys : List String)
    (hkeys : data'.map Prod.fst = data.map Prod.fst)
    (hsame : ∀ q, (alookup data' q).map ParamData.indexed =
      (alookup data q).map ParamData.indexed) :
    phase1bTargets data' keys = phase1bTargets data keys := by
  unfold phase1bTargets
  rw [hkeys]
  apply List.filterMap_congr
  intro p _
  by_cases hc : p ∈ keys ∨ p = "CPI_offset" ∨ p ∈ WAGE_INDEXED_PARAMS
  · simp [hc]
  · simp only [if_neg hc]
    have h := hsame p
    cases h1 : alookup data p with
    | none =>
      rw [h1] at h
      have h2 : alookup data' p = none := by
        cases h2 : alookup data' p with
        | none => rfl
        | some pd' => rw [h2] at h; simp at h
      rw [h2]
    | some pd =>
      rw [h1] at h
      obtain ⟨pd', h2, h3⟩ : ∃ pd', alookup data' p = some pd' ∧
          pd'.indexed = pd.indexed := by
        cases h2 : alookup data' p with
        | none => rw [h2] at h; simp at h
        | some pd' => rw [h2] at h; simp at h; exact ⟨pd', rfl, h⟩
      rw [h2]
      dsimp only
      rw [h3]

theorem mem_phase1aTargets_intro {V : Type} [CommRing V] [DecidableEq V]
    (data : List (String × ParamData V)) (keys : List String) (k p : String)
    (pd : ParamData V) (hk : k ∈ keys)
    (hc : ¬(k = "CPI_offset" ∨ k ∈ WAGE_INDEXED_PARAMS)) (hs : stripKey k = p)
    (hlk : alookup data p = some pd) (hix : pd.indexed = true) :
    p ∈ phase1aTargets data keys := by
  unfold phase1aTargets
  rw [List.mem_filterMap]
  refine ⟨k, hk, ?_⟩
  rw [if_neg hc]
  dsimp only
  rw [hs, hlk]
  dsimp only
  simp [hix]

theorem mem_phase1bTargets_elim {V : Type} [CommRing V] [DecidableEq V]
    (data : List (String × ParamData V)) (keys : List String) (p : String)
    (h : p ∈ phase1bTargets data keys) :
    ¬(p ∈ keys ∨ p = "CPI_offset" ∨ p ∈ WAGE_INDEXED_PARAMS) := by
  unfold phase1bTargets at h
  rw [List.mem_filterMap] at h
  obtain ⟨a, _, hfa⟩ := h
  by_cases hc : a ∈ keys ∨ a = "CPI_offset" ∨ a ∈ WAGE_INDEXED_PARAMS
  · rw [if_pos hc] at hfa
    exact absurd hfa (by simp)
  · rw [if_neg hc] at hfa
    cases h1 : alookup data a with
    | none => rw [h1] at hfa; simp at hfa
    | some pd =>
      rw [h1] at hfa
      dsimp only at hfa
      cases hix : pd.indexed with
      | true =>
        rw [hix] at hfa
        simp at hfa
        subst hfa
        exact hc
      | false => rw [hix] at hfa; simp at hfa

theorem mem_phase1bTargets_intro {V : Type} [CommRing V] [DecidableEq V]
    (data : List (String × ParamData V)) (keys : List String) (p : String)
    (pd : ParamData V)
    (hc : ¬(p ∈ keys ∨ p = "CPI_offset" ∨ p ∈ WAGE_INDEXED_PARAMS))
    (hlk : alookup data p = some pd) (hix : pd.indexed = true) :
    p ∈ phase1bTargets data keys := by
  unfold phase1bTargets
  rw [List.mem_filterMap]
  refine ⟨p, alookup_some_mem data p pd hlk, ?_⟩
  rw [if_neg hc, hlk]
  dsimp only
  simp [hix]

theorem alookup_map_indexed_updateParam {V : Type} [CommRing V] [DecidableEq V]
    (data : List (String × ParamData V)) (p : String)
    (g : ParamData V → ParamData V) (hg : ∀ pd, (g pd).indexed = pd.indexed)
    (q : String) :
    (alookup (updateParam data p g) q).map ParamData.indexed =
      (alookup data q).map ParamData.indexed := by
  rw [alookup_updateParam]
  by_cases h : q = p
  · rw [if_pos h]
    cases alookup data q with
    | none => rfl
    | some pd => simp [hg]
  · rw [if_neg h]

theorem alookup_map_indexed_deleteForTargets {V : Type} [CommRing V] [DecidableEq V]
    (ts : List String) (data : List (String × ParamData V)) (y : Int) (q : String) :
    (alookup (deleteForTargets data ts y) q).map ParamData.indexed =
      (alookup data q).map ParamData.indexed := by
  rw [alookup_deleteForTargets]
  by_cases h : q ∈ ts
  · rw [if_pos h]
    cases alookup data q with
    | none => rfl
    | some pd => simp
  · rw [if_neg h]

/-- C1 (amended): in the offset phase, a currently-indexed, non-wage
parameter other than `CPI_offset` is reset as follows — if it is named
(directly or through its `"-indexed"` key) in the payload, its values
for years *strictly greater than* `first_changed_year` are deleted in
step 1.a; if it is not a payload key, its values for years strictly
greater than `max(first_changed_year, last_known_year)` are deleted in
step 1.b; a parameter that is a payload key but escapes step 1.a's
name-stripping is untouched.  (The claim as stated swaps the two
classes, uses `≥` instead of `>`, and ties the last-known-year boundary
to the wrong class.) -/
theorem c1_offset_resets {V : Type} [CommRing V] [DecidableEq V]
    (st : Store V) (entries : List (VO V)) (keys : List String)
    (p : String) (pd : ParamData V)
    (hp : alookup st.data p = some pd)
    (hind : pd.indexed = true)
    (hw : p ∉ WAGE_INDEXED_PARAMS)
    (hcpi : p ≠ "CPI_offset") :
    alookup (offsetPhaseCore st entries keys).1.data p =
      (if p ∈ phase1aTargets st.data keys then
        some { pd with values := deleteGT pd.values (minYearD entries) }
      else if p ∉ keys then
        some { pd with values := deleteGT pd.values (max (minYearD entries) st.lastKnownYear) }
      else some pd) := by
  have hcud : (cpiUpdate st entries).data =
      updateParam st.data "CPI_offset" (fun pd0 =>
        { pd0 with values := pd0.values.filter (fun vo => decide (vo.year < minYearD entries)) ++ (yearRange (minYearD entries) st.endYear).map (fun y => ⟨y, offsetValueAt entries 0 y⟩) }) := rfl
  have hcore : (offsetPhaseCore st entries keys).1.data =
      deleteForTargets
        (deleteForTargets (cpiUpdate st entries).data
          (phase1aTargets (cpiUpdate st entries).data keys) (minYearD entries))
        (phase1bTargets
          (deleteForTargets (cpiUpdate st entries).data
            (phase1aTargets (cpiUpdate st entries).data keys) (minYearD entries))
          keys)
        (max (minYearD entries) st.lastKnownYear) := rfl
  have hsame1 : ∀ q, (alookup (cpiUpdate st entries).data q).map ParamData.indexed =
      (alookup st.data q).map ParamData.indexed := by
    intro q
    rw [hcud]
    apply alookup_map_indexed_updateParam
    intro pd0
    rfl
  have hdata1 : alookup (cpiUpdate st entries).data p = some pd := by
    rw [hcud, alookup_updateParam, if_neg hcpi]
    exact hp
  have ht1a : phase1aTargets (cpiUpdate st entries).data keys =
      phase1aTargets st.data keys :=
    phase1aTargets_congr st.data (cpiUpdate st entries).data keys hsame1
  have hsame2 : ∀ q,
      (alookup (deleteForTargets (cpiUpdate st entries).data
        (phase1aTargets (cpiUpdate st entries).data keys) (minYearD entries)) q).map
          ParamData.indexed =
      (alookup st.data q).map ParamData.indexed := by
    intro q
    rw [alookup_map_indexed_deleteForTargets]
    exact hsame1 q
  have hkeys2 :
      (deleteForTargets (cpiUpdate st entries).data
        (phase1aTargets (cpiUpdate st entries).data keys) (minYearD entries)).map
          Prod.fst = st.data.map Prod.fst := by
    rw [keys_deleteForTargets, hcud, keys_updateParam]
  have ht1b : phase1bTargets
      (deleteForTargets (cpiUpdate st entries).data
        (phase1aTargets (cpiUpdate st entries).data keys) (minYearD entries)) keys =
      phase1bTargets st.data keys :=
    phase1bTargets_congr st.data _ keys hkeys2 hsame2
  have hinner : alookup (deleteForTargets (cpiUpdate st entries).data
      (phase1aTargets (cpiUpdate st entries).data keys) (minYearD entries)) p =
      (if p ∈ phase1aTargets st.data keys then
        some { pd with values := deleteGT pd.values (minYearD entries) }
      else some pd) := by
    rw [alookup_deleteForTargets, ht1a, hdata1]
    by_cases ha : p ∈ phase1aTargets st.data keys
    · rw [if_pos ha, if_pos ha]
      rfl
    · rw [if_neg ha, if_neg ha]
  rw [hcore, alookup_deleteForTargets, ht1b, hinner]
  by_cases ha : p ∈ phase1aTargets st.data keys
  · rw [if_pos ha, if_pos ha]
    by_cases hk : p ∈ keys
    · have hnb : p ∉ phase1bTargets st.data keys := fun hmem =>
        (mem_phase1bTargets_elim st.data keys p hmem) (Or.inl hk)
      rw [if_neg hnb]
    · have hb : p ∈ phase1bTargets st.data keys :=
        mem_phase1bTargets_intro st.data keys p pd
          (by
            intro hor
            rcases hor with h | h | h
            · exact hk h
            · exact hcpi h
            · exact hw h)
          hp hind
      rw [if_pos hb]
      simp only [Option.map_some']
      congr 1
      simp [deleteGT_deleteGT_of_le pd.values (minYearD entries)
        (max (minYearD entries) st.lastKnownYear) (le_max_left _ _)]
  · rw [if_neg ha, if_neg ha]
    by_cases hk : p ∈ keys
    · have hnb : p ∉ phase1bTargets st.data keys := fun hmem =>
        (mem_phase1bTargets_elim st.data keys p hmem) (Or.inl hk)
      rw [if_neg hnb, if_neg (not_not_intro hk)]
    · have hb : p ∈ phase1bTargets st.data keys :=
        mem_phase1bTargets_intro st.data keys p pd
          (by
            intro hor
            rcases hor with h | h | h
            · exact hk h
            · exact hcpi h
            · exact hw h)
          hp hind
      rw [if_pos hb, if_pos hk]
      rfl

/-- C1 witness: on the C1 fixture (offset first changed at 2015,
`last_known_year` 2017), the explicitly adjusted indexed parameter `A`
is reset in step 1.a, keeping exactly its values through 2015. -/
theorem c1_offset_resets_witness :
    alookup c1Store.data "A" =
      some (⟨true, true, [⟨2013, 10⟩, ⟨2014, 11⟩, ⟨2015, 12⟩, ⟨2016, 13⟩, ⟨2017, 14⟩, ⟨2018, 15⟩]⟩ : ParamData Int) ∧
    alookup (offsetPhaseCore c1Store [⟨2015, (5 : Int)⟩] c1Keys).1.data "A" =
      some (⟨true, true, [⟨2013, 10⟩, ⟨2014, 11⟩, ⟨2015, 12⟩]⟩ : ParamData Int) := by
  constructor
  · decide
  · rw [c1_offset_resets c1Store [⟨2015, (5 : Int)⟩] c1Keys "A"
      ⟨true, true, [⟨2013, 10⟩, ⟨2014, 11⟩, ⟨2015, 12⟩, ⟨2016, 13⟩, ⟨2017, 14⟩, ⟨2018, 15⟩]⟩
      (by decide) rfl (by decide) (by decide)]
    decide

theorem mem_phase1aTargets_elim {V : Type} [CommRing V] [DecidableEq V]
    (data : List (String × ParamData V)) (keys : List String) (p : String)
    (h : p ∈ phase1aTargets data keys) :
    ∃ k ∈ keys, ¬(k = "CPI_offset" ∨ k ∈ WAGE_INDEXED_PARAMS) ∧ stripKey k = p := by
  unfold phase1aTargets at h
  rw [List.mem_filterMap] at h
  obtain ⟨k, hk, hfk⟩ := h
  by_cases hc : k = "CPI_offset" ∨ k ∈ WAGE_INDEXED_PARAMS
  · rw [if_pos hc] at hfk
    exact absurd hfk (by simp)
  · rw [if_neg hc] at hfk
    dsimp only at hfk
    refine ⟨k, hk, hc, ?_⟩
    cases h1 : alookup data (stripKey k) with
    | none => rw [h1] at hfk; simp at hfk
    | some pd =>
      rw [h1] at hfk
      dsimp only at hfk
      cases hix : pd.indexed with
      | true => rw [hix] at hfk; simpa using hfk
      | false => rw [hix] at hfk; simp at hfk

/-- C8 (amended): the offset phase leaves a wage-indexed parameter's
stored values untouched *provided* the payload contains no
`"<wage-param>-indexed"` key: step 1.b always skips the wage-indexed
set, and step 1.a skips it unless a key strips to the wage parameter's
name — the raw-key wage check of line 132 runs before the suffix
stripping of lines 134-135, so such a key slips through (see the
counterexample). -/
theorem c8_wage_params_skipped {V : Type} [CommRing V] [DecidableEq V]
    (st : Store V) (entries : List (VO V)) (keys : List String) (w : String)
    (hw : w ∈ WAGE_INDEXED_PARAMS)
    (hnok : ∀ k ∈ keys, ¬(endsIndexed k = true ∧ baseOf k = w)) :
    alookup (offsetPhaseCore st entries keys).1.data w = alookup st.data w := by
  have hwcpi : w ≠ "CPI_offset" := by
    have hw' : w = "SS_Earnings_c" ∨ w = "SS_Earnings_thd" := by
      simpa [WAGE_INDEXED_PARAMS] using hw
    rcases hw' with rfl | rfl <;> decide
  have hcore : (offsetPhaseCore st entries keys).1.data =
      deleteForTargets
        (deleteForTargets (cpiUpdate st entries).data
          (phase1aTargets (cpiUpdate st entries).data keys) (minYearD entries))
        (phase1bTargets
          (deleteForTargets (cpiUpdate st entries).data
            (phase1aTargets (cpiUpdate st entries).data keys) (minYearD entries))
          keys)
        (max (minYearD entries) st.lastKnownYear) := rfl
  have hnota : ∀ (d : List (String × ParamData V)), w ∉ phase1aTargets d keys := by
    intro d hmem
    obtain ⟨k, hk, hc, hskw⟩ := mem_phase1aTargets_elim d keys w hmem
    by_cases he : endsIndexed k = true
    · exact hnok k hk ⟨he, by rw [← hskw]; unfold stripKey; rw [if_pos he]⟩
    · have : k = w := by
        rw [← hskw]
        unfold stripKey
        rw [if_neg he]
      exact hc (Or.inr (this ▸ hw))
  have hnotb : ∀ (d : List (String × ParamData V)), w ∉ phase1bTargets d keys := by
    intro d hmem
    exact (mem_phase1bTargets_elim d keys w hmem) (Or.inr (Or.inr hw))
  rw [hcore, alookup_deleteForTargets, if_neg (hnotb _),
    alookup_deleteForTargets, if_neg (hnota _)]
  have hcud : (cpiUpdate st entries).data =
      updateParam st.data "CPI_offset" (fun pd0 =>
        { pd0 with values := pd0.values.filter (fun vo => decide (vo.year < minYearD entries)) ++ (yearRange (minYearD entries) st.endYear).map (fun y => ⟨y, offsetValueAt entries 0 y⟩) }) := rfl
  rw [hcud, alookup_updateParam, if_neg hwcpi]

/-- C8 witness: with `CPI_offset` changed but no wage `"-indexed"` key in
the payload, `SS_Earnings_c` keeps all its stored values through the
offset phase's reset steps. -/
theorem c8_wage_params_skipped_witness :
    ("SS_Earnings_c" ∈ WAGE_INDEXED_PARAMS) ∧
    alookup (offsetPhaseCore c8Store [⟨2015, (5 : Int)⟩] ["CPI_offset"]).1.data
        "SS_Earnings_c" = alookup c8Store.data "SS_Earnings_c" := by
  constructor
  · decide
  · exact c8_wage_params_skipped c8Store [⟨2015, (5 : Int)⟩] ["CPI_offset"]
      "SS_Earnings_c" (by decide) (by decide)

theorem bumpAt_length {V : Type} [CommRing V] [DecidableEq V] :
    ∀ (l : List V) (i : Nat) (d : V), (bumpAt l i d).length = l.length := by
  intro l
  induction l with
  | nil => intro i d; rfl
  | cons x xs ih =>
    intro i d
    cases i with
    | zero => rfl
    | succ n => simp [bumpAt, ih]

theorem getD_bumpAt {V : Type} [CommRing V] [DecidableEq V] :
    ∀ (l : List V) (i : Nat) (d : V) (j : Nat),
      (bumpAt l i d).getD j 0 =
        if i = j ∧ j < l.length then l.getD j 0 + d else l.getD j 0 := by
  intro l
  induction l with
  | nil => intro i d j; simp [bumpAt]
  | cons x xs ih =>
    intro i d j
    cases i with
    | zero =>
      cases j with
      | zero => simp [bumpAt]
      | succ m => simp [bumpAt]
    | succ n =>
      cases j with
      | zero => simp [bumpAt]
      | succ m =>
        simp only [bumpAt, List.getD_cons_succ, ih, List.length_cons]
        by_cases hc : n = m ∧ m < xs.length
        · rw [if_pos hc, if_pos (by omega)]
        · rw [if_neg hc, if_neg (by omega)]

theorem foldl_bumpYears_length {V : Type} [CommRing V] [DecidableEq V]
    (start : Int) (δ : V) :
    ∀ (ys : List Int) (r : List V),
      (ys.foldl (fun rr y => bumpAt rr (y - start).toNat δ) r).length = r.length := by
  intro ys
  induction ys with
  | nil => intro r; rfl
  | cons y ys' ih =>
    intro r
    simp only [List.foldl_cons, ih, bumpAt_length]

theorem bump_rangeN_getD {V : Type} [CommRing V] [DecidableEq V]
    (start a : Int) (δ : V) (hsa : start ≤ a) :
    ∀ (n : Nat) (r : List V) (j : Nat),
      ((((List.range n).map (fun (i : Nat) => a + (i : Int))).foldl
        (fun rr y => bumpAt rr (y - start).toNat δ) r)).getD j 0 =
      if a ≤ start + (j : Int) ∧ start + (j : Int) < a + (n : Int) ∧ j < r.length then
        r.getD j 0 + δ
      else r.getD j 0 := by
  intro n
  induction n with
  | zero =>
    intro r j
    simp only [List.range_zero, List.map_nil, List.foldl_nil]
    rw [if_neg (by omega)]
  | succ m ih =>
    intro r j
    rw [List.range_succ, List.map_append, List.foldl_append]
    simp only [List.map_cons, List.map_nil, List.foldl_cons, List.foldl_nil]
    rw [getD_bumpAt, foldl_bumpYears_length, ih]
    have htn : ((a + (m : Int) - start).toNat : Int) = a + (m : Int) - start := by omega
    by_cases h1 : a ≤ start + (j : Int) ∧ start + (j : Int) < a + (m : Int) ∧ j < r.length
    · rw [if_pos h1]
      rw [if_neg (show ¬((a + (m : Int) - start).toNat = j ∧ j < r.length) by omega)]
      rw [if_pos (show a ≤ start + (j : Int) ∧
        start + (j : Int) < a + ((m + 1 : Nat) : Int) ∧ j < r.length by omega)]
    · rw [if_neg h1]
      by_cases h2 : (a + (m : Int) - start).toNat = j ∧ j < r.length
      · rw [if_pos h2]
        rw [if_pos (show a ≤ start + (j : Int) ∧
          start + (j : Int) < a + ((m + 1 : Nat) : Int) ∧ j < r.length by omega)]
      · rw [if_neg h2]
        rw [if_neg (show ¬(a ≤ start + (j : Int) ∧
          start + (j : Int) < a + ((m + 1 : Nat) : Int) ∧ j < r.length) by omega)]

theorem mem_yearRange (a b y : Int) : y ∈ yearRange a b ↔ a ≤ y ∧ y ≤ b := by
  unfold yearRange
  rw [List.mem_map]
  constructor
  · rintro ⟨i, hi, rfl⟩
    rw [List.mem_range] at hi
    omega
  · rintro ⟨h1, h2⟩
    exact ⟨(y - a).toNat, by rw [List.mem_range]; omega, by omega⟩

theorem bump_yearRange_getD {V : Type} [CommRing V] [DecidableEq V]
    (start a b : Int) (δ : V) (hsa : start ≤ a) (r : List V) (j : Nat) :
    ((yearRange a b).foldl (fun rr y => bumpAt rr (y - start).toNat δ) r).getD j 0 =
      if a ≤ start + (j : Int) ∧ start + (j : Int) ≤ b ∧ j < r.length then
        r.getD j 0 + δ
      else r.getD j 0 := by
  unfold yearRange
  rw [bump_rangeN_getD start a δ hsa ((b + 1 - a).toNat) r j]
  by_cases h1 : a ≤ start + (j : Int) ∧ start + (j : Int) ≤ b ∧ j < r.length
  · rw [if_pos (by omega), if_pos h1]
  · rw [if_neg (by omega), if_neg h1]

/-- C3: when an adjust call sets the CPI offset to `δ` effective at year
`y0`, the offset phase leaves, for every grid year `y`, the new
inflation rate equal to the pre-call (default) rate plus `δ` for
`y ≥ y0`, and unchanged for `y < y0`.  The `CPI_offset` update carries
`δ` forward through the horizon, and the rate-adjustment loop of
lines 122-127 adds each carried value to the cached rate at its year. -/
theorem c3_offset_linearity {V : Type} [CommRing V] [DecidableEq V]
    (st : Store V) (keys : List String) (y0 : Int) (δ : V) (cpd : ParamData V)
    (hcpd : alookup st.data "CPI_offset" = some cpd)
    (hy0a : st.startYear ≤ y0) (_hy0b : y0 ≤ st.endYear)
    (hlen : (st.endYear - st.startYear).toNat < st.inflationRates.length)
    (y : Int) (hya : st.startYear ≤ y) (hyb : y ≤ st.endYear) :
    (offsetPhase st [⟨y0, δ⟩] keys).1.inflationRates.getD (y - st.startYear).toNat 0 =
      (if y0 ≤ y then st.inflationRates.getD (y - st.startYear).toNat 0 + δ
       else st.inflationRates.getD (y - st.startYear).toNat 0) := by
  have hrates : (offsetPhase st [⟨y0, δ⟩] keys).1.inflationRates =
      (selectGT (valuesOf (cpiUpdate st [⟨y0, δ⟩]).data "CPI_offset") (y0 - 1)).foldl
        (fun r vo => bumpAt r (vo.year - st.startYear).toNat vo.value)
        st.inflationRates := rfl
  have hcud : (cpiUpdate st [⟨y0, δ⟩]).data =
      updateParam st.data "CPI_offset" (fun pd0 =>
        { pd0 with values := pd0.values.filter (fun vo => decide (vo.year < y0)) ++ (yearRange y0 st.endYear).map (fun yy => ⟨yy, offsetValueAt [⟨y0, δ⟩] 0 yy⟩) }) := rfl
  have hup : alookup (cpiUpdate st [⟨y0, δ⟩]).data "CPI_offset" =
      some { cpd with values := cpd.values.filter (fun vo => decide (vo.year < y0)) ++ (yearRange y0 st.endYear).map (fun yy => ⟨yy, offsetValueAt [⟨y0, δ⟩] 0 yy⟩) } := by
    rw [hcud, alookup_updateParam, if_pos rfl, hcpd]
    rfl
  have hvals : valuesOf (cpiUpdate st [⟨y0, δ⟩]).data "CPI_offset" =
      cpd.values.filter (fun vo => decide (vo.year < y0)) ++
        (yearRange y0 st.endYear).map
          (fun yy => ⟨yy, offsetValueAt [⟨y0, δ⟩] 0 yy⟩) := by
    simp [valuesOf, hup]
  have hsel : selectGT
      (cpd.values.filter (fun vo => decide (vo.year < y0)) ++
        (yearRange y0 st.endYear).map
          (fun yy => ⟨yy, offsetValueAt [⟨y0, δ⟩] 0 yy⟩)) (y0 - 1) =
      (yearRange y0 st.endYear).map
        (fun yy => (⟨yy, offsetValueAt [⟨y0, δ⟩] 0 yy⟩ : VO V)) := by
    unfold selectGT
    rw [List.filter_append]
    have hA : (cpd.values.filter (fun vo => decide (vo.year < y0))).filter
        (fun vo => decide (y0 - 1 < vo.year)) = [] := by
      apply List.filter_eq_nil_iff.mpr
      intro a ha
      have h1 : decide (a.year < y0) = true := (List.mem_filter.mp ha).2
      simp only [decide_eq_true_eq] at h1 ⊢
      omega
    have hB : ((yearRange y0 st.endYear).map
        (fun yy => (⟨yy, offsetValueAt [⟨y0, δ⟩] 0 yy⟩ : VO V))).filter
          (fun vo => decide (y0 - 1 < vo.year)) =
        (yearRange y0 st.endYear).map
          (fun yy => (⟨yy, offsetValueAt [⟨y0, δ⟩] 0 yy⟩ : VO V)) := by
      apply List.filter_eq_self.mpr
      intro a ha
      rw [List.mem_map] at ha
      obtain ⟨yy, hyy, rfl⟩ := ha
      have hmem := (mem_yearRange _ _ _).mp hyy
      simp only [decide_eq_true_eq]
      omega
    rw [hA, hB, List.nil_append]
  have hBδ : (yearRange y0 st.endYear).map
      (fun yy => (⟨yy, offsetValueAt [⟨y0, δ⟩] 0 yy⟩ : VO V)) =
      (yearRange y0 st.endYear).map (fun yy => (⟨yy, δ⟩ : VO V)) := by
    apply List.map_congr_left
    intro yy hyy
    have h1 : y0 ≤ yy := ((mem_yearRange _ _ _).mp hyy).1
    have h2 : offsetValueAt [(⟨y0, δ⟩ : VO V)] 0 yy = δ := by
      unfold offsetValueAt
      dsimp only [List.foldl]
      rw [if_pos h1]
    rw [h2]
  rw [hrates, hvals, hsel, hBδ, List.foldl_map]
  show ((yearRange y0 st.endYear).foldl
      (fun rr yy => bumpAt rr (yy - st.startYear).toNat δ)
      st.inflationRates).getD (y - st.startYear).toNat 0 = _
  rw [bump_yearRange_getD st.startYear y0 st.endYear δ hy0a]
  by_cases hc : y0 ≤ y
  · rw [if_pos (by omega), if_pos hc]
  · rw [if_neg (by omega), if_neg hc]

/-- C3 witness: on a concrete three-year store with rates
`[10, 20, 30]`, setting the offset to `5` at 2014 yields rates
`[10, 25, 35]` — years at or after 2014 gain `5`, 2013 is unchanged. -/
theorem c3_offset_linearity_witness :
    alookup c3Store.data "CPI_offset" =
      some (⟨false, false, [⟨2013, 0⟩, ⟨2014, 0⟩, ⟨2015, 0⟩]⟩ : ParamData Int) ∧
    (offsetPhase c3Store [⟨2014, (5 : Int)⟩] []).1.inflationRates.getD
        ((2015 : Int) - c3Store.startYear).toNat 0 =
      c3Store.inflationRates.getD ((2015 : Int) - c3Store.startYear).toNat 0 + 5 := by
  constructor
  · decide
  · rw [c3_offset_linearity c3Store [] 2014 (5 : Int)
      ⟨false, false, [⟨2013, 0⟩, ⟨2014, 0⟩, ⟨2015, 0⟩]⟩ (by decide) (by decide)
      (by decide) (by decide) 2015 (by decide) (by decide)]
    rw [if_pos (by decide)]

theorem phase3_labelToExtend {V : Type} [CommRing V] [DecidableEq V]
    (st : Store V) (entries : List (String × PVal V)) :
    (phase3 st entries).labelToExtend = st.labelToExtend := by
  unfold phase3
  dsimp only
  split <;> rfl

theorem phase3_arrayFirst {V : Type} [CommRing V] [DecidableEq V]
    (st : Store V) (entries : List (String × PVal V)) :
    (phase3 st entries).arrayFirst = st.arrayFirst := by
  unfold phase3
  dsimp only
  split <;> rfl

theorem phase2step_not_indexable {V : Type} [CommRing V] [DecidableEq V]
    (minY : Int) (payload : List (String × PVal V)) (r : P2Res V)
    (k : String) (v : PVal V) (pd : ParamData V)
    (hr : r.err = none) (hk : endsIndexed k = true)
    (hpd : alookup r.st.data (baseOf k) = some pd)
    (hix : pd.indexable = false) :
    phase2step minY payload r (k, v) =
      { r with err := some (.notIndexable (baseOf k)) } := by
  unfold phase2step
  rw [hr]
  dsimp only
  rw [if_pos hk, hpd]
  dsimp only
  rw [if_pos hix]

theorem phase2_foldl_err_absorb {V : Type} [CommRing V] [DecidableEq V]
    (minY : Int) (payload : List (String × PVal V)) :
    ∀ (l : List (String × PVal V)) (r : P2Res V) (e : AdjErr), r.err = some e →
      l.foldl (phase2step minY payload) r = r := by
  intro l
  induction l with
  | nil => intro r e h; rfl
  | cons x xs ih =>
    intro r e h
    have hx : phase2step minY payload r x = r := by
      unfold phase2step
      rw [h]
    rw [List.foldl_cons, hx]
    exact ih r e h

/-- C9: every successful `adjust` call restores `label_to_extend` and
`array_first` to their entry values — they are saved at lines 96-97,
cleared during the intermediate phases, and written back at lines
263-264 before the plain-value phase, which does not touch them. -/
theorem c9_flags_restored {V : Type} [CommRing V] [DecidableEq V]
    (st0 : Store V) (payload : List (String × PVal V))
    (hok : (adjust st0 payload).err = none) :
    (adjust st0 payload).st.labelToExtend = st0.labelToExtend ∧
    (adjust st0 payload).st.arrayFirst = st0.arrayFirst := by
  unfold adjust at hok ⊢
  dsimp only at hok ⊢
  cases hr : (payload.foldl (phase2step st0.startYear payload)
      ⟨phase2Start st0 payload, [], [], none⟩).err with
  | some e =>
    rw [hr] at hok
    dsimp only at hok
    exact absurd hok (by simp)
  | none =>
    dsimp only
    constructor
    · rw [phase3_labelToExtend]
    · rw [phase3_arrayFirst]

/-- C9 witness: `adjust` with an empty payload succeeds and leaves both
toggles as they were. -/
theorem c9_flags_restored_witness :
    (adjust c9Store ([] : List (String × PVal Int))).err = none ∧
    (adjust c9Store ([] : List (String × PVal Int))).st.labelToExtend =
      c9Store.labelToExtend ∧
    (adjust c9Store ([] : List (String × PVal Int))).st.arrayFirst =
      c9Store.arrayFirst :=
  ⟨by decide, c9_flags_restored c9Store [] (by decide)⟩

/-- C6: an indexed-status entry whose base parameter is not declared
indexable makes the `adjust` call fail with the error of lines 171-176
(the `pt.ValidationError` that the spec's taxonomy calls
`InvalidOperation`), whose payload names exactly that parameter.  The
`hclean` hypothesis pins the entry as the first one that raises: entries
processed before it ran without error. -/
theorem c6_not_indexable {V : Type} [CommRing V] [DecidableEq V]
    (st0 : Store V) (payload pre post : List (String × PVal V))
    (k : String) (v : PVal V) (pd : ParamData V)
    (hpl : payload = pre ++ (k, v) :: post)
    (hk : endsIndexed k = true)
    (hclean : (pre.foldl (phase2step st0.startYear payload)
      ⟨phase2Start st0 payload, [], [], none⟩).err = none)
    (hpd : alookup (pre.foldl (phase2step st0.startYear payload)
      ⟨phase2Start st0 payload, [], [], none⟩).st.data (baseOf k) = some pd)
    (hix : pd.indexable = false) :
    (adjust st0 payload).err = some (.notIndexable (baseOf k)) := by
  subst hpl
  have hstep : phase2step st0.startYear (pre ++ (k, v) :: post)
      ((pre.foldl (phase2step st0.startYear (pre ++ (k, v) :: post))
        ⟨phase2Start st0 (pre ++ (k, v) :: post), [], [], none⟩)) (k, v) =
      { pre.foldl (phase2step st0.startYear (pre ++ (k, v) :: post))
          ⟨phase2Start st0 (pre ++ (k, v) :: post), [], [], none⟩ with
        err := some (.notIndexable (baseOf k)) } :=
    phase2step_not_indexable _ _ _ k v pd hclean hk hpd hix
  have hfull : (pre ++ (k, v) :: post).foldl
      (phase2step st0.startYear (pre ++ (k, v) :: post))
      ⟨phase2Start st0 (pre ++ (k, v) :: post), [], [], none⟩ =
      { pre.foldl (phase2step st0.startYear (pre ++ (k, v) :: post))
          ⟨phase2Start st0 (pre ++ (k, v) :: post), [], [], none⟩ with
        err := some (.notIndexable (baseOf k)) } := by
    rw [List.foldl_append, List.foldl_cons, hstep]
    exact phase2_foldl_err_absorb _ _ post _ _ rfl
  unfold adjust
  dsimp only
  rw [hfull]

/-- C6 witness: a payload whose only entry is `Foo-indexed` on a store
where `Foo` is not indexable fails with the error naming `Foo`. -/
theorem c6_not_indexable_witness :
    ((⟨false, false, [⟨2013, (3 : Int)⟩]⟩ : ParamData Int).indexable = false) ∧
    (adjust c6Store c6Payload).err = some (.notIndexable "Foo") := by
  constructor
  · rfl
  · rw [c6_not_indexable c6Store c6Payload [] [] "Foo-indexed" (.sbool true)
      ⟨false, false, [⟨2013, 3⟩]⟩ rfl (by decide) (by decide) (by decide) rfl]
    decide

/-- C2 counterexample: the payload `c2Payload` first applies its
`CPI_offset` change (mutating the offset series, the inflation rates and
the indexed parameter `A`), then raises on the non-indexable `X-indexed`
entry — the call fails, yet the store's parameter data differs from its
pre-call state, refuting all-or-nothing error handling. -/
theorem c2_counterexample :
    (adjust c2Store c2Payload).err = some (.notIndexable "X") ∧
    (adjust c2Store c2Payload).st.data ≠ c2Store.data := by
  refine ⟨by decide, by decide⟩

/-- C2 (amended): a `MalformedInput`/`InvalidOperation` error raised in
the indexed-status phase precedes the failing entry's own mutation, so
when the failing entry is the payload's first entry and no `CPI_offset`
entry is present the parameter data is unchanged by the failed call;
but the call is not all-or-nothing — the `array_first` toggle (cleared
at line 98) is left cleared on the error path, and, as the
counterexample shows, mutations of an earlier CPI-offset phase persist. -/
theorem c2_error_state {V : Type} [CommRing V] [DecidableEq V]
    (st0 : Store V) (payload rest : List (String × PVal V))
    (k : String) (v : PVal V) (pd : ParamData V)
    (hpl : payload = (k, v) :: rest)
    (hcpi : alookup payload "CPI_offset" = none)
    (hk : endsIndexed k = true)
    (hpd : alookup st0.data (baseOf k) = some pd)
    (hix : pd.indexable = false) :
    (adjust st0 payload).err = some (.notIndexable (baseOf k)) ∧
    (adjust st0 payload).st.data = st0.data ∧
    (adjust st0 payload).st.arrayFirst = false := by
  subst hpl
  have hstart : phase2Start st0 ((k, v) :: rest) =
      { st0 with arrayFirst := false, labelToExtend := none } := by
    unfold phase2Start
    rw [hcpi]
  have hlk : alookup (phase2Start st0 ((k, v) :: rest)).data (baseOf k) =
      some pd := by
    rw [hstart]
    exact hpd
  have hstep : phase2step st0.startYear ((k, v) :: rest)
      ⟨phase2Start st0 ((k, v) :: rest), [], [], none⟩ (k, v) =
      { st := phase2Start st0 ((k, v) :: rest), indexAffected := [],
        needsReset := [], err := some (.notIndexable (baseOf k)) } :=
    phase2step_not_indexable _ _ _ k v pd rfl hk hlk hix
  have hfull : ((k, v) :: rest).foldl (phase2step st0.startYear ((k, v) :: rest))
      ⟨phase2Start st0 ((k, v) :: rest), [], [], none⟩ =
      { st := phase2Start st0 ((k, v) :: rest), indexAffected := [],
        needsReset := [], err := some (.notIndexable (baseOf k)) } := by
    rw [List.foldl_cons, hstep]
    exact phase2_foldl_err_absorb _ _ rest _ _ rfl
  unfold adjust
  dsimp only
  rw [hfull]
  refine ⟨rfl, ?_, ?_⟩
  · rw [hstart]
  · rw [hstart]

/-- C2 witness for the amended statement: the failing entry alone, with
no `CPI_offset` change — the call fails, the parameter data is intact,
and `array_first` is left cleared. -/
theorem c2_error_state_witness :
    (alookup c2Payload' "CPI_offset" = (none : Option (PVal Int))) ∧
    (adjust c2Store c2Payload').err = some (.notIndexable "X") ∧
    (adjust c2Store c2Payload').st.data = c2Store.data ∧
    (adjust c2Store c2Payload').st.arrayFirst = false := by
  have h := c2_error_state c2Store c2Payload' [] "X-indexed" (.sbool true)
    ⟨false, false, [⟨2013, 1⟩, ⟨2014, 1⟩, ⟨2015, 1⟩]⟩ rfl (by decide) (by decide)
    (by decide) rfl
  refine ⟨by decide, ?_, h.2.1, h.2.2⟩
  rw [h.1]
  decide

theorem valueAtYear_append_ne {V : Type} [CommRing V] [DecidableEq V]
    (vos : List (VO V)) (y : Int) (w : V) (z : Int) (h : z ≠ y) :
    valueAtYear (vos ++ [⟨y, w⟩]) z = valueAtYear vos z := by
  unfold valueAtYear
  rw [List.find?_append]
  cases hf : vos.find? (fun vo => decide (vo.year = z)) with
  | some vo => simp [hf]
  | none =>
    have h' : ¬ (y = z) := fun hc => h hc.symm
    simp [hf, List.find?, h']

theorem valueAtYear_append_self_isSome {V : Type} [CommRing V] [DecidableEq V]
    (vos : List (VO V)) (y : Int) (w : V) :
    (valueAtYear (vos ++ [⟨y, w⟩]) y).isSome := by
  unfold valueAtYear
  rw [List.find?_append]
  cases hf : vos.find? (fun vo => decide (vo.year = y)) with
  | some vo => simp [hf]
  | none => simp [hf, List.find?]

theorem valuesOf_eq_of_lookup {V : Type} [CommRing V] [DecidableEq V]
    (d : List (String × ParamData V)) (p : String) (pd : ParamData V)
    (h : alookup d p = some pd) : valuesOf d p = pd.values := by
  unfold valuesOf
  rw [h]

theorem valuesOf_eq_nil {V : Type} [CommRing V] [DecidableEq V]
    (d : List (String × ParamData V)) (p : String)
    (h : alookup d p = none) : valuesOf d p = [] := by
  unfold valuesOf
  rw [h]

theorem valuesOf_updateParam_self {V : Type} [CommRing V] [DecidableEq V]
    (d : List (String × ParamData V)) (p : String)
    (f : ParamData V → ParamData V) (pd : ParamData V)
    (h : alookup d p = some pd) :
    valuesOf (updateParam d p f) p = (f pd).values := by
  unfold valuesOf
  rw [alookup_updateParam, if_pos rfl, h]
  rfl

theorem fillYearStep_of_lookup_none {V : Type} [CommRing V] [DecidableEq V]
    (st : Store V) (d : List (String × ParamData V)) (p : String) (y : Int)
    (h : alookup d p = none) : fillYearStep st d p y = d := by
  unfold fillYearStep
  rw [h]

theorem fillYearStep_of_some_at {V : Type} [CommRing V] [DecidableEq V]
    (st : Store V) (d : List (String × ParamData V)) (p : String) (y : Int)
    (pd : ParamData V) (hlk : alookup d p = some pd) (u : V)
    (hy : valueAtYear pd.values y = some u) : fillYearStep st d p y = d := by
  unfold fillYearStep
  rw [hlk]
  dsimp only
  rw [hy]

theorem fillYearStep_of_prev_none {V : Type} [CommRing V] [DecidableEq V]
    (st : Store V) (d : List (String × ParamData V)) (p : String) (y : Int)
    (pd : ParamData V) (hlk : alookup d p = some pd)
    (hy : valueAtYear pd.values y = none)
    (hprev : valueAtYear pd.values (y - 1) = none) :
    fillYearStep st d p y = d := by
  unfold fillYearStep
  rw [hlk]
  dsimp only
  rw [hy]
  dsimp only
  rw [hprev]

theorem fillYearStep_append {V : Type} [CommRing V] [DecidableEq V]
    (st : Store V) (d : List (String × ParamData V)) (p : String) (y : Int)
    (pd : ParamData V) (v : V) (hlk : alookup d p = some pd)
    (hy : valueAtYear pd.values y = none)
    (hprev : valueAtYear pd.values (y - 1) = some v) :
    fillYearStep st d p y =
      updateParam d p (fun pd2 =>
        { pd2 with values := pd2.values ++ [⟨y, if pd.indexed then v * (1 + get_index_rate st p y) else v⟩] }) := by
  unfold fillYearStep
  rw [hlk]
  dsimp only
  rw [hy]
  dsimp only
  rw [hprev]

theorem view_step_ne {V : Type} [CommRing V] [DecidableEq V]
    (st : Store V) (d : List (String × ParamData V)) (p : String) (y z : Int)
    (hz : z ≠ y) :
    valueAtYear (valuesOf (fillYearStep st d p y) p) z =
      valueAtYear (valuesOf d p) z := by
  cases hlk : alookup d p with
  | none => rw [fillYearStep_of_lookup_none st d p y hlk]
  | some pd =>
    cases hy : valueAtYear pd.values y with
    | some u => rw [fillYearStep_of_some_at st d p y pd hlk u hy]
    | none =>
      cases hprev : valueAtYear pd.values (y - 1) with
      | none => rw [fillYearStep_of_prev_none st d p y pd hlk hy hprev]
      | some v =>
        rw [fillYearStep_append st d p y pd v hlk hy hprev,
          valuesOf_updateParam_self _ _ _ pd hlk]
        dsimp only
        rw [valueAtYear_append_ne pd.values y _ z hz,
          valuesOf_eq_of_lookup d p pd hlk]

theorem view_step_chain {V : Type} [CommRing V] [DecidableEq V]
    (st : Store V) (d : List (String × ParamData V)) (p : String) (y : Int)
    (pd : ParamData V) (hlk : alookup d p = some pd)
    (hprev : (valueAtYear (valuesOf d p) (y - 1)).isSome) :
    (valueAtYear (valuesOf (fillYearStep st d p y) p) y).isSome := by
  have hvals := valuesOf_eq_of_lookup d p pd hlk
  cases hy : valueAtYear pd.values y with
  | some u =>
    rw [fillYearStep_of_some_at st d p y pd hlk u hy, hvals, hy]
    rfl
  | none =>
    rw [hvals] at hprev
    obtain ⟨v, hv⟩ := Option.isSome_iff_exists.mp hprev
    rw [fillYearStep_append st d p y pd v hlk hy hv,
      valuesOf_updateParam_self _ _ _ pd hlk]
    dsimp only
    exact valueAtYear_append_self_isSome pd.values y _

theorem fillYearsData_succ {V : Type} [CommRing V] [DecidableEq V]
    (st : Store V) (p : String) (a : Int) (n : Nat)
    (d : List (String × ParamData V)) :
    fillYearsData st d p ((List.range (n + 1)).map (fun (i : Nat) => a + (i : Int))) =
      fillYearStep st
        (fillYearsData st d p ((List.range n).map (fun (i : Nat) => a + (i : Int))))
        p (a + (n : Int)) := by
  unfold fillYearsData
  rw [List.range_succ, List.map_append, List.foldl_append]
  simp only [List.map_cons, List.map_nil, List.foldl_cons, List.foldl_nil]

theorem fillYearsData_view_ne {V : Type} [CommRing V] [DecidableEq V]
    (st : Store V) (p : String) (a : Int) (d : List (String × ParamData V)) :
    ∀ (n : Nat) (z : Int), (z < a ∨ a + (n : Int) ≤ z) →
      valueAtYear (valuesOf
        (fillYearsData st d p ((List.range n).map (fun (i : Nat) => a + (i : Int)))) p) z =
      valueAtYear (valuesOf d p) z := by
  intro n
  induction n with
  | zero => intro z _; rfl
  | succ m ih =>
    intro z hz
    rw [fillYearsData_succ]
    rw [view_step_ne st _ p (a + (m : Int)) z (by omega)]
    exact ih z (by omega)

theorem fillYearsData_chain {V : Type} [CommRing V] [DecidableEq V]
    (st : Store V) (p : String) (a : Int) (d : List (String × ParamData V)) :
    ∀ (n : Nat) (y : Int), a ≤ y → y < a + (n : Int) →
      (valueAtYear (valuesOf
        (fillYearsData st d p ((List.range n).map (fun (i : Nat) => a + (i : Int)))) p) (y - 1)).isSome →
      (valueAtYear (valuesOf
        (fillYearsData st d p ((List.range n).map (fun (i : Nat) => a + (i : Int)))) p) y).isSome := by
  intro n
  induction n with
  | zero =>
    intro y h1 h2 _
    exact absurd h1 (by omega)
  | succ m ih =>
    intro y h1 h2 hsome
    rw [fillYearsData_succ] at hsome ⊢
    by_cases hy : y = a + (m : Int)
    · subst hy
      rw [view_step_ne st _ p (a + (m : Int)) (a + (m : Int) - 1) (by omega)] at hsome
      cases hlk : alookup
          (fillYearsData st d p ((List.range m).map (fun (i : Nat) => a + (i : Int)))) p with
      | none =>
        rw [valuesOf_eq_nil _ _ hlk] at hsome
        simp [valueAtYear] at hsome
      | some pd =>
        exact view_step_chain st _ p (a + (m : Int)) pd hlk hsome
    · have hy2 : y < a + (m : Int) := by omega
      rw [view_step_ne st _ p (a + (m : Int)) (y - 1) (by omega)] at hsome
      rw [view_step_ne st _ p (a + (m : Int)) y (by omega)]
      exact ih y h1 hy2 hsome

theorem fillYearsData_step_noop {V : Type} [CommRing V] [DecidableEq V]
    (st : Store V) (p : String) (a : Int) (d : List (String × ParamData V))
    (n : Nat) (y : Int) (h1 : a ≤ y) (h2 : y < a + (n : Int)) :
    fillYearStep st
      (fillYearsData st d p ((List.range n).map (fun (i : Nat) => a + (i : Int)))) p y =
    fillYearsData st d p ((List.range n).map (fun (i : Nat) => a + (i : Int))) := by
  cases hlk : alookup
      (fillYearsData st d p ((List.range n).map (fun (i : Nat) => a + (i : Int)))) p with
  | none => exact fillYearStep_of_lookup_none st _ p y hlk
  | some pd =>
    have hvals := valuesOf_eq_of_lookup _ p pd hlk
    cases hprev : valueAtYear pd.values (y - 1) with
    | none =>
      cases hy : valueAtYear pd.values y with
      | some u => exact fillYearStep_of_some_at st _ p y pd hlk u hy
      | none => exact fillYearStep_of_prev_none st _ p y pd hlk hy hprev
    | some v =>
      have hps : (valueAtYear (valuesOf
          (fillYearsData st d p ((List.range n).map (fun (i : Nat) => a + (i : Int)))) p)
          (y - 1)).isSome := by
        rw [hvals, hprev]
        rfl
      have hchain := fillYearsData_chain st p a d n y h1 h2 hps
      rw [hvals] at hchain
      obtain ⟨u, hu⟩ := Option.isSome_iff_exists.mp hchain
      exact fillYearStep_of_some_at st _ p y pd hlk u hu

theorem fillYearsData_noop {V : Type} [CommRing V] [DecidableEq V]
    (st : Store V) (p : String) (d : List (String × ParamData V)) :
    ∀ (ys : List Int), (∀ y ∈ ys, fillYearStep st d p y = d) →
      fillYearsData st d p ys = d := by
  intro ys
  induction ys with
  | nil => intro _; rfl
  | cons y ys' ih =>
    intro h
    show (y :: ys').foldl (fun dd yy => fillYearStep st dd p yy) d = d
    rw [List.foldl_cons]
    rw [h y (by simp)]
    exact ih (fun y' hy' => h y' (by simp [hy']))

theorem fillYearsData_range_idem {V : Type} [CommRing V] [DecidableEq V]
    (st : Store V) (p : String) (a : Int) (n : Nat)
    (d : List (String × ParamData V)) :
    fillYearsData st
      (fillYearsData st d p ((List.range n).map (fun (i : Nat) => a + (i : Int)))) p
      ((List.range n).map (fun (i : Nat) => a + (i : Int))) =
    fillYearsData st d p ((List.range n).map (fun (i : Nat) => a + (i : Int))) := by
  apply fillYearsData_noop
  intro y hy
  rw [List.mem_map] at hy
  obtain ⟨i, hi, rfl⟩ := hy
  rw [List.mem_range] at hi
  exact fillYearsData_step_noop st p a d n (a + (i : Int)) (by omega) (by omega)

/-- C7: the Extension Engine's `extend(p, R)` is idempotent over any
inclusive year range `R = [a, b]`: extending parameter `p` over `R`
twice in succession, with no intervening state mutation, yields exactly
the same store — hence the same value objects — as extending once.  The
first pass leaves no fillable gap inside `R` (every year of `R` whose
predecessor holds a value holds one afterwards), and extension never
overwrites an existing value, so the second pass is a no-op at every
year of `R`. -/
theorem c7_extend_range_idempotent {V : Type} [CommRing V] [DecidableEq V]
    (st : Store V) (p : String) (a b : Int) :
    fillP (fillP st p (yearRange a b)) p (yearRange a b) =
      fillP st p (yearRange a b) := by
  have hdata : fillYearsData (fillP st p (yearRange a b))
      ((fillP st p (yearRange a b)).data) p (yearRange a b) =
      (fillP st p (yearRange a b)).data :=
    fillYearsData_range_idem st p a ((b + 1 - a).toNat) st.data
  exact congrArg (fun D => { fillP st p (yearRange a b) with data := D }) hdata
